import Mathlib

/-!
Shallow embedding of `datacompy/sf_table.py` (Snowflake/Snowpark table
comparison engine) for verification of its specification claims.

Conventions of the embedding:
* SQL values of a column are modelled by `Cell := Option Prim`, where `none`
  is SQL `NULL` and `Prim` is either a numeric value (modelled by `ℚ`,
  idealising float/decimal arithmetic) or a string (covering string, date and
  timestamp columns through their textual form).
* A Snowpark dataframe column is a Lean list; relational operations
  (`filter`, `join`, `window/row_number`, `agg max`, `count`) become the
  corresponding list operations.  SQL three-valued logic is made explicit:
  a comparison involving `NULL` yields `NULL`, which a `when(...)` condition
  treats as false, exactly as in the source expressions.
* Column data types are the dtype strings Snowpark reports
  (e.g. "int", "string", "decimal(10,2)").
-/

namespace Datacompy

/-- Primitive (non-null) SQL values: numerics idealised as rationals, and
string-like values (string/date/timestamp) as strings. -/
inductive Prim where
  | num (q : ℚ)
  | str (s : String)
deriving DecidableEq

/-- A cell of a column: `none` is SQL NULL. -/
abbrev Cell := Option Prim

/-- Numeric view of a cell, as used by numeric SQL operators (a non-numeric
value is never produced by a numeric-typed column; it reads as NULL). -/
def toNum : Cell → Option ℚ
  | some (Prim.num q) => some q
  | _ => none

/-- Render a rational as a string, used when a numeric cell is forced into a
string context (SQL cast to string). -/
def ratStr (q : ℚ) : String :=
  toString q.num ++ "/" ++ toString q.den

/-- String view of a cell, as used by string SQL operators. -/
def toStr : Cell → Option String
  | some (Prim.str s) => some s
  | some (Prim.num q) => some (ratStr q)
  | none => none

/-- Model of SQL `trim`: strip leading and trailing whitespace (including
newlines) from a string. -/
def sqlTrim (s : String) : String :=
  ⟨((s.toList.dropWhile Char.isWhitespace).reverse.dropWhile Char.isWhitespace).reverse⟩

/-- Model of `decimal_comparator()` from the source: a type name is equal to
the decimal comparator iff it has at least 7 characters and its first 7
characters are "decimal" (`len(other) >= 7 and other[0:7] == "decimal"`). -/
def decimalEq (t : String) : Bool :=
  decide (7 ≤ t.length) && (t.toList.take 7 == "decimal".toList)

/-- Membership test in `NUMERIC_SPARK_TYPES` from the source: the six plain
numeric type names, plus the decimal comparator. -/
def inNumericSparkTypes (t : String) : Bool :=
  t == "tinyint" || t == "smallint" || t == "int" || t == "bigint" ||
  t == "float" || t == "double" || decimalEq t

/-- Model of `_is_comparable(type1, type2)` from the source.  The Python set
equalities `{type1, type2} == {"string", "timestamp"}` and
`{type1, type2} == {"string", "date"}` are translated to the equivalent
ordered disjunctions (the right-hand literals are distinct two-element
sets). -/
def is_comparable (t1 t2 : String) : Bool :=
  t1 == t2
  || (inNumericSparkTypes t1 && inNumericSparkTypes t2)
  || ((t1 == "string" && t2 == "timestamp") || (t1 == "timestamp" && t2 == "string"))
  || ((t1 == "string" && t2 == "date") || (t1 == "date" && t2 == "string"))

/-- Per-row semantics of `columns_equal` from the source: the boolean value
of the added `col_match` column on one row, given the two column dtypes, the
tolerances, the `ignore_spaces` flag and the two cells.

The numeric branch mirrors
`when(eqNullSafe | (abs(c1-c2) <= abs_tol + rel_tol*abs(c2)), when(c1 not
null & c2 null, False).otherwise(True)).otherwise(False)`, with SQL
three-valued logic: the tolerance comparison is NULL (hence false as a
condition) when either operand is NULL.  The non-numeric branch mirrors the
(optionally trimmed) `eqNullSafe` comparison, and the incomparable branch is
the constant `False` column. -/
def columns_equal_row (dtype1 dtype2 : String) (rel_tol abs_tol : ℚ)
    (ignore_spaces : Bool) (c1 c2 : Cell) : Bool :=
  if is_comparable dtype1 dtype2 then
    if inNumericSparkTypes dtype1 && inNumericSparkTypes dtype2 then
      let x := toNum c1
      let y := toNum c2
      let tolOk : Bool :=
        match x, y with
        | some a, some b => decide (|a - b| ≤ abs_tol + rel_tol * |b|)
        | _, _ => false
      if x == y || tolOk then
        if x.isSome && y.isNone then false else true
      else false
    else
      if ignore_spaces then
        (toStr c1).map sqlTrim == (toStr c2).map sqlTrim
      else
        toStr c1 == toStr c2
  else false

/-- Model of `calculate_max_diff` from the source: 0 when either dtype is
outside the numeric family; otherwise the SQL `max` of `abs(c1 - c2)` over
the rows where that difference is not NULL, with a NULL aggregate (empty
set) coerced to 0. -/
def calculate_max_diff (type1 type2 : String) (pairs : List (Cell × Cell)) : ℚ :=
  if !(inNumericSparkTypes type1 && inNumericSparkTypes type2) then 0
  else
    let diffs := pairs.filterMap fun p =>
      match toNum p.1, toNum p.2 with
      | some a, some b => some |a - b|
      | _, _ => none
    match diffs with
    | [] => 0
    | x :: xs => xs.foldl max x

/-- Model of `calculate_null_diff` from the source: the count of rows where
exactly one of the two cells is NULL (`(not a and b) or (a and not b)`). -/
def calculate_null_diff (pairs : List (Cell × Cell)) : ℕ :=
  pairs.countP fun p =>
    (!(decide (p.1 = none)) && decide (p.2 = none))
    || (decide (p.1 = none) && !(decide (p.2 = none)))

/-- A shared column of the two tables: its name and its dtype on each side. -/
structure ColPair where
  name : String
  dtype1 : String
  dtype2 : String
deriving DecidableEq

/-- One entry of `column_stats` as built by `_intersect_compare`. -/
structure ColumnStat where
  match_cnt : ℕ
  unequal_cnt : ℕ
  all_match : Bool
  max_diff : ℚ
  null_diff : ℕ
deriving DecidableEq

/-- The `column_stats` record `_intersect_compare` builds for a shared
non-join column, from the pairs of cells of that column over the intersect rows
(`pairs.length` is the intersect row count `row_cnt`). -/
def columnStat (rel_tol abs_tol : ℚ) (ignore_spaces : Bool) (c : ColPair)
    (pairs : List (Cell × Cell)) : ColumnStat :=
  let row_cnt := pairs.length
  let match_cnt := pairs.countP fun p =>
    columns_equal_row c.dtype1 c.dtype2 rel_tol abs_tol ignore_spaces p.1 p.2
  { match_cnt := match_cnt
    unequal_cnt := row_cnt - match_cnt
    all_match := c.dtype1 == c.dtype2 && row_cnt == match_cnt
    max_diff := calculate_max_diff c.dtype1 c.dtype2 pairs
    null_diff := calculate_null_diff pairs }

/-- The `column_stats` record `_intersect_compare` builds for a join-key
column: `match_cnt = row_cnt`, zero diff, zero null discordance. -/
def columnStatJoinKey (c : ColPair) (row_cnt : ℕ) : ColumnStat :=
  { match_cnt := row_cnt
    unequal_cnt := row_cnt - row_cnt
    all_match := c.dtype1 == c.dtype2 && row_cnt == row_cnt
    max_diff := 0
    null_diff := 0 }

/-- State of a `TableCompare` after `_dataframe_merge`, as consumed by the
row-level result methods: the column overlap, the shared non-key columns with
the cell pairs of the intersect rows (one pair per non-key column, in the order of
`nonKeyCols`), the unique-row counts, and the comparison parameters. -/
structure CompareState where
  df1OnlyCols : List String
  df2OnlyCols : List String
  nonKeyCols : List ColPair
  rows : List (List (Cell × Cell))
  df1UnqRowCount : ℕ
  df2UnqRowCount : ℕ
  rel_tol : ℚ
  abs_tol : ℚ
  ignore_spaces : Bool

/-- The match flag of one shared non-key column on one intersect row. -/
def rowFlag (s : CompareState) (c : ColPair) (p : Cell × Cell) : Bool :=
  columns_equal_row c.dtype1 c.dtype2 s.rel_tol s.abs_tol s.ignore_spaces p.1 p.2

/-- Whether an intersect row satisfies the match flag of every non-key column
(the conjunction `col1_MATCH = True and col2_MATCH = True and ...`). -/
def rowAllMatch (s : CompareState) (row : List (Cell × Cell)) : Bool :=
  (s.nonKeyCols.zip row).all fun cp => rowFlag s cp.1 cp.2

/-- Model of `TableCompare.count_matching_rows`: with at least one shared
non-key column, the number of intersect rows on which every non-key match
flag is true; with no such column no condition is built and the count is
0. -/
def count_matching_rows (s : CompareState) : ℕ :=
  if s.nonKeyCols.isEmpty then 0
  else (s.rows.filter fun row => rowAllMatch s row).length

/-- Model of `TableCompare.intersect_rows_match`. -/
def intersect_rows_match (s : CompareState) : Bool :=
  count_matching_rows s == s.rows.length

/-- Model of `TableCompare.all_columns_match`
(`df1_unq_columns() == df2_unq_columns() == set()`). -/
def all_columns_match (s : CompareState) : Bool :=
  s.df1OnlyCols.isEmpty && s.df2OnlyCols.isEmpty

/-- Model of `TableCompare.all_rows_overlap`. -/
def all_rows_overlap (s : CompareState) : Bool :=
  s.df1UnqRowCount == 0 && s.df2UnqRowCount == 0

/-- Model of `TableCompare.matches` (named `table_matches` because `matches`
is reserved in Lean). -/
def table_matches (s : CompareState) (ignore_extra_columns : Bool) : Bool :=
  (ignore_extra_columns || all_columns_match s)
  && all_rows_overlap s && intersect_rows_match s

/-- Model of `TableCompare.subset`: df2 has no extra columns, no unique
rows, and the intersect rows all match. -/
def subset (s : CompareState) : Bool :=
  s.df2OnlyCols.isEmpty && s.df2UnqRowCount == 0 && intersect_rows_match s

/-- A row of the outer join, classified by the `_merge` indicator column
computed from the two `merge` marker columns: present on both sides, left
side only, or right side only. -/
inductive JoinRow (α β : Type) where
  | both (a : α) (b : β)
  | leftOnly (a : α)
  | rightOnly (b : β)
deriving DecidableEq

/-- The left-driven part of the outer join: each left row either pairs with
every right row sharing its key, or becomes `leftOnly` when none does. -/
def joinLeftPart {α β K : Type} [DecidableEq K] (ka : α → K) (kb : β → K)
    (l : List α) (r : List β) : List (JoinRow α β) :=
  l.flatMap fun a =>
    let ms := r.filter fun b => kb b == ka a
    if ms.isEmpty then [JoinRow.leftOnly a] else ms.map (JoinRow.both a)

/-- The right-only part of the outer join: right rows with no key partner on
the left. -/
def joinRightPart {α β K : Type} [DecidableEq K] (ka : α → K) (kb : β → K)
    (l : List α) (r : List β) : List (JoinRow α β) :=
  (r.filter fun b => !(l.any fun a => ka a == kb b)).map JoinRow.rightOnly

/-- Full outer equality join of two lists on key functions, with the
classification of `_dataframe_merge`: a left row with no key partner becomes
`leftOnly`, otherwise it pairs with every matching right row; right rows with
no key partner become `rightOnly`. -/
def fullOuterJoin {α β K : Type} [DecidableEq K] (ka : α → K) (kb : β → K)
    (l : List α) (r : List β) : List (JoinRow α β) :=
  joinLeftPart ka kb l r ++ joinRightPart ka kb l r

/-- The `df1_unq_rows` selection: source rows of the `LEFT_ONLY` partition. -/
def onlyLeftRows {α β : Type} (j : List (JoinRow α β)) : List α :=
  j.filterMap fun row =>
    match row with
    | JoinRow.leftOnly a => some a
    | _ => none

/-- The `df2_unq_rows` selection: source rows of the `RIGHT_ONLY` partition. -/
def onlyRightRows {α β : Type} (j : List (JoinRow α β)) : List β :=
  j.filterMap fun row =>
    match row with
    | JoinRow.rightOnly b => some b
    | _ => none

/-- The `intersect_rows` selection: the aligned pairs of the `BOTH`
partition. -/
def bothRows {α β : Type} (j : List (JoinRow α β)) : List (α × β) :=
  j.filterMap fun row =>
    match row with
    | JoinRow.both a b => some (a, b)
    | _ => none

/-- Map both sides of a join row (used to drop the ordinal columns after the
join, `* EXCLUDE (order_col_df1, order_col_df2)`). -/
def mapJoinRow {α β γ δ : Type} (f : α → γ) (g : β → δ) :
    JoinRow α β → JoinRow γ δ
  | JoinRow.both a b => JoinRow.both (f a) (g b)
  | JoinRow.leftOnly a => JoinRow.leftOnly (f a)
  | JoinRow.rightOnly b => JoinRow.rightOnly (g b)

/-- Occurrence ordinal assignment (`row_number().over(Window.orderBy
("__index").partitionBy(join_columns)) - 1`): each row is tagged with the
number of earlier rows sharing its key.  `seen` accumulates the keys of the
rows already passed. -/
def occurrenceOrdinals {Row K : Type} [DecidableEq K] (key : Row → K) :
    List Row → List K → List (Row × ℕ)
  | [], _ => []
  | a :: rest, seen => (a, seen.count (key a)) :: occurrenceOrdinals key rest (key a :: seen)

/-- A relation augmented with per-key occurrence ordinals, in source order. -/
def withOrdinals {Row K : Type} [DecidableEq K] (key : Row → K) (l : List Row) :
    List (Row × ℕ) :=
  occurrenceOrdinals key l []

/-- Duplicate-key detection of `_validate_dataframe`
(`df.drop_duplicates(join_columns).count() < df.count()`). -/
def hasDupKeys {Row K : Type} [DecidableEq K] (key : Row → K) (l : List Row) : Bool :=
  decide ((l.map key).dedup.length < l.length)

/-- Model of `TableCompare._dataframe_merge` restricted to row alignment.
When either side has duplicate join keys, each side is augmented with the
occurrence ordinal; the outer join is then performed on `self.join_columns`
(the original key only — the ordinal appended to `temp_join_columns` is not
passed to the join, exactly as in the source), after which the suffixed
ordinal columns are dropped.  Without duplicates the join is on the key
directly. -/
def dataframe_merge {Row K : Type} [DecidableEq K] (key : Row → K)
    (l r : List Row) : List (JoinRow Row Row) :=
  if hasDupKeys key l || hasDupKeys key r then
    (fullOuterJoin (fun p => key p.1) (fun p => key p.1)
      (withOrdinals key l) (withOrdinals key r)).map (mapJoinRow Prod.fst Prod.fst)
  else
    fullOuterJoin key key l r

/-- Substring containment test, modelling the Python test `"string" in type`. -/
def strContainsSub (s pat : String) : Bool :=
  (List.range (s.length + 1)).any fun i => pat.toList.isPrefixOf (s.toList.drop i)

/-- The sentinel placeholder substituted for NULL join-key values. -/
def sentinel : String := "DATACOMPY_NULL"

/-- Whether any join-key cell of any row is NULL (the `null_check` loop of
`_generate_id_within_group`; `rows` holds the join-key columns of each row,
in the order of `dtypes`). -/
def nullInJoinCols (rows : List (List Cell)) : Bool :=
  rows.any fun r => r.any fun c => c == none

/-- Whether the sentinel occurs as real data in a string-typed join-key
column (the `default_check` loop of `_generate_id_within_group`; a column is
string-typed when `"string" in type`). -/
def sentinelInJoinStringCols (dtypes : List String) (rows : List (List Cell)) : Bool :=
  (List.range dtypes.length).any fun j =>
    strContainsSub (dtypes.getD j "") "string"
    && rows.any fun r => r.getD j none == some (Prim.str sentinel)

/-- Cast of a join-key cell to string followed by `fillna(sentinel)`. -/
def cellToKeyString : Cell → String
  | none => sentinel
  | some (Prim.str s) => s
  | some (Prim.num q) => ratStr q

/-- Model of `_generate_id_within_group`: given the dtypes of the join-key columns
and the join-key cells of each row (in original `__index` order), return the
`(__index, ordinal)` pairs, or raise when the sentinel collides with real
data while NULL substitution is needed. -/
def generate_id_within_group (dtypes : List String) (rows : List (List Cell)) :
    Except String (List (ℕ × ℕ)) :=
  if nullInJoinCols rows then
    if sentinelInJoinStringCols dtypes rows then
      Except.error (sentinel ++ " was found in your join columns")
    else
      Except.ok (((withOrdinals (fun r => r.map cellToKeyString) rows).enum).map
        fun p => (p.1, p.2.2))
  else
    Except.ok (((withOrdinals (fun r => r) rows).enum).map fun p => (p.1, p.2.2))

/-- Numeric type family as the specification words it: the fixed
integer/floating variants, or a parametrized decimal type — any type name
beginning with "decimal" and at least 7 characters long. -/
def numericFamilySpec (t : String) : Prop :=
  t ∈ ["tinyint", "smallint", "int", "bigint", "float", "double"]
  ∨ (7 ≤ t.length ∧ List.IsPrefix "decimal".toList t.toList)

/-- Type comparability as the specification words it: identical types, both
in the numeric family, or the unordered pair being exactly
string/timestamp or string/date. -/
def comparableSpec (t1 t2 : String) : Prop :=
  t1 = t2
  ∨ (numericFamilySpec t1 ∧ numericFamilySpec t2)
  ∨ ({t1, t2} : Finset String) = {"string", "timestamp"}
  ∨ ({t1, t2} : Finset String) = {"string", "date"}

/-- Variant of `columns_equal_row` following the specification sentence for
`ignoreSpaces` word for word: whitespace is stripped before the null-safe
equality check exactly when both columns are string-typed, and non-string
comparable pairs are compared without stripping.  Used to compare the
specified behaviour against the source. -/
def columns_equal_row_stripOnlyStrings (dtype1 dtype2 : String)
    (rel_tol abs_tol : ℚ) (ignore_spaces : Bool) (c1 c2 : Cell) : Bool :=
  if is_comparable dtype1 dtype2 then
    if inNumericSparkTypes dtype1 && inNumericSparkTypes dtype2 then
      columns_equal_row dtype1 dtype2 rel_tol abs_tol ignore_spaces c1 c2
    else
      if ignore_spaces && (dtype1 == "string" && dtype2 == "string") then
        (toStr c1).map sqlTrim == (toStr c2).map sqlTrim
      else
        toStr c1 == toStr c2
  else false

/-- C8 counterexample state: both relations consist of a single join-key
column with one matched row, so there is no shared non-key column. -/
def subsetCexState : CompareState :=
  ⟨[], [], [], [[]], 0, 0, 0, 0, false⟩

/-! Helper lemmas. -/

lemma finset_pair_eq_iff {α : Type} [DecidableEq α] {a b c d : α} (hcd : c ≠ d) :
    ({a, b} : Finset α) = {c, d} ↔ (a = c ∧ b = d) ∨ (a = d ∧ b = c) := by
  constructor
  · intro h
    have ha : a = c ∨ a = d := by
      have hm : a ∈ ({c, d} : Finset α) := by rw [← h]; simp
      simpa using hm
    have hb : b = c ∨ b = d := by
      have hm : b ∈ ({c, d} : Finset α) := by rw [← h]; simp
      simpa using hm
    have hc : c = a ∨ c = b := by
      have hm : c ∈ ({a, b} : Finset α) := by rw [h]; simp
      simpa using hm
    have hd : d = a ∨ d = b := by
      have hm : d ∈ ({a, b} : Finset α) := by rw [h]; simp
      simpa using hm
    rcases ha with h1 | h1 <;> rcases hb with h2 | h2
    · rcases hd with h3 | h3
      · exact absurd (h3.trans h1).symm hcd
      · exact absurd (h3.trans h2).symm hcd
    · exact Or.inl ⟨h1, h2⟩
    · exact Or.inr ⟨h1, h2⟩
    · rcases hc with h3 | h3
      · exact absurd (h3.trans h1) hcd
      · exact absurd (h3.trans h2) hcd
  · rintro (⟨rfl, rfl⟩ | ⟨rfl, rfl⟩)
    · rfl
    · exact Finset.pair_comm _ _

lemma inNumericSparkTypes_iff (t : String) :
    inNumericSparkTypes t = true ↔ numericFamilySpec t := by
  unfold inNumericSparkTypes numericFamilySpec decimalEq
  simp only [Bool.or_eq_true, Bool.and_eq_true, beq_iff_eq, decide_eq_true_eq,
    List.mem_cons, List.mem_singleton, List.not_mem_nil, or_false]
  constructor
  · rintro (((((( h | h) | h) | h) | h) | h) | ⟨hlen, htake⟩)
    · exact Or.inl (Or.inl h)
    · exact Or.inl (Or.inr (Or.inl h))
    · exact Or.inl (Or.inr (Or.inr (Or.inl h)))
    · exact Or.inl (Or.inr (Or.inr (Or.inr (Or.inl h))))
    · exact Or.inl (Or.inr (Or.inr (Or.inr (Or.inr (Or.inl h)))))
    · exact Or.inl (Or.inr (Or.inr (Or.inr (Or.inr (Or.inr h)))))
    · refine Or.inr ⟨hlen, ?_⟩
      rw [List.prefix_iff_eq_take]
      exact htake.symm
  · rintro ((h | h | h | h | h | h) | ⟨hlen, hpre⟩)
    · exact Or.inl (Or.inl (Or.inl (Or.inl (Or.inl (Or.inl h)))))
    · exact Or.inl (Or.inl (Or.inl (Or.inl (Or.inl (Or.inr h)))))
    · exact Or.inl (Or.inl (Or.inl (Or.inl (Or.inr h))))
    · exact Or.inl (Or.inl (Or.inl (Or.inr h)))
    · exact Or.inl (Or.inl (Or.inr h))
    · exact Or.inl (Or.inr h)
    · refine Or.inr ⟨hlen, ?_⟩
      rw [List.prefix_iff_eq_take] at hpre
      exact hpre.symm

/-! Claim theorems. -/

/-- C3: `_is_comparable(typeA, typeB)` returns true iff the two type names
are identical, or both belong to the numeric family (where decimal-like
means at least 7 characters beginning with "decimal"), or the unordered pair
is exactly string/timestamp or string/date. -/
theorem is_comparable_spec (t1 t2 : String) :
    is_comparable t1 t2 = true ↔ comparableSpec t1 t2 := by
  unfold is_comparable comparableSpec
  rw [finset_pair_eq_iff (show "string" ≠ "timestamp" by decide),
    finset_pair_eq_iff (show "string" ≠ "date" by decide)]
  simp only [Bool.or_eq_true, Bool.and_eq_true, beq_iff_eq, inNumericSparkTypes_iff]
  tauto

lemma is_comparable_of_numeric {d1 d2 : String}
    (h1 : inNumericSparkTypes d1 = true) (h2 : inNumericSparkTypes d2 = true) :
    is_comparable d1 d2 = true := by
  simp [is_comparable, h1, h2]

/-- C2: for numeric column types, the per-row match flag of `columns_equal`
is true iff both values are null or both are non-null with
`|left - right| ≤ abs_tol + rel_tol * |right|`; it is false whenever exactly
one side is null, regardless of tolerance, and true on two nulls. -/
theorem columns_equal_numeric_tolerance (d1 d2 : String) (rel_tol abs_tol : ℚ)
    (isp : Bool) (x y : Option ℚ)
    (h1 : inNumericSparkTypes d1 = true) (h2 : inNumericSparkTypes d2 = true) :
    (0 ≤ abs_tol → 0 ≤ rel_tol →
      (columns_equal_row d1 d2 rel_tol abs_tol isp (x.map Prim.num) (y.map Prim.num) = true
        ↔ ((x = none ∧ y = none)
            ∨ ∃ a b : ℚ, x = some a ∧ y = some b ∧ |a - b| ≤ abs_tol + rel_tol * |b|)))
    ∧ (x.isSome → y = none →
        columns_equal_row d1 d2 rel_tol abs_tol isp (x.map Prim.num) (y.map Prim.num) = false)
    ∧ (x = none → y.isSome →
        columns_equal_row d1 d2 rel_tol abs_tol isp (x.map Prim.num) (y.map Prim.num) = false)
    ∧ columns_equal_row d1 d2 rel_tol abs_tol isp (none : Cell) none = true := by
  have hc := is_comparable_of_numeric h1 h2
  have hnum : (inNumericSparkTypes d1 && inNumericSparkTypes d2) = true := by
    rw [h1, h2]; rfl
  refine ⟨?_, ?_, ?_, ?_⟩
  · intro hat hrt
    cases x with
    | none =>
      cases y with
      | none => simp [columns_equal_row, hc, hnum, toNum]
      | some b => simp [columns_equal_row, hc, hnum, toNum]
    | some a =>
      cases y with
      | none => simp [columns_equal_row, hc, hnum, toNum]
      | some b =>
        have hval : columns_equal_row d1 d2 rel_tol abs_tol isp
            ((some a : Option ℚ).map Prim.num) ((some b : Option ℚ).map Prim.num)
            = (decide (a = b) || decide (|a - b| ≤ abs_tol + rel_tol * |b|)) := by
          simp [columns_equal_row, hc, hnum, toNum]
        rw [hval]
        simp only [Bool.or_eq_true, decide_eq_true_eq, Option.some.injEq]
        constructor
        · rintro (rfl | h3)
          · refine Or.inr ⟨a, a, rfl, rfl, ?_⟩
            rw [sub_self, abs_zero]
            exact add_nonneg hat (mul_nonneg hrt (abs_nonneg a))
          · exact Or.inr ⟨a, b, rfl, rfl, h3⟩
        · rintro (⟨h3, _⟩ | ⟨a', b', ha', hb', h3⟩)
          · exact absurd h3 (Option.some_ne_none a)
          · obtain rfl : a = a' := ha'
            obtain rfl : b = b' := hb'
            exact Or.inr h3
  · intro hx hy
    subst hy
    obtain ⟨a, rfl⟩ := Option.isSome_iff_exists.mp hx
    simp [columns_equal_row, hc, hnum, toNum]
  · intro hx hy
    subst hx
    obtain ⟨b, rfl⟩ := Option.isSome_iff_exists.mp hy
    simp [columns_equal_row, hc, hnum, toNum]
  · simp [columns_equal_row, hc, hnum, toNum]

/-- Witness for C2: the theorem applied at concrete numeric inputs. -/
theorem columns_equal_numeric_tolerance_witness :
    columns_equal_row "int" "double" 0 1 false
      (some (Prim.num 3)) (some (Prim.num 2)) = true := by
  have h := columns_equal_numeric_tolerance "int" "double" 0 1 false
    (some 3) (some 2) (by decide) (by decide)
  exact (h.1 (by norm_num) (by norm_num)).mpr
    (Or.inr ⟨3, 2, rfl, rfl, by norm_num⟩)

/-- C7 counterexample: with `ignore_spaces` set, the `columns_equal` of the source
strips whitespace for the comparable non-numeric pair string/date (the
left string value only matches after trimming), whereas the claimed
behaviour — stripping only when both columns are string-typed — would
compare un-stripped values and report a mismatch. -/
theorem columns_equal_ignore_spaces_cex :
    columns_equal_row "string" "date" 0 0 true
      (some (Prim.str " 2020-01-01")) (some (Prim.str "2020-01-01")) = true
    ∧ columns_equal_row_stripOnlyStrings "string" "date" 0 0 true
      (some (Prim.str " 2020-01-01")) (some (Prim.str "2020-01-01")) = false := by
  constructor
  · decide
  · decide

/-- C7 amended: with `ignore_spaces` set, `columns_equal` strips leading and
trailing whitespace from both values before the null-safe equality check
whenever the column pair is comparable and not both-numeric (for example
also for date/date or string/date pairs), not only when both columns are
string-typed; numeric comparable pairs are unaffected by the flag. -/
theorem columns_equal_ignore_spaces_amended (d1 d2 : String) (rt a_tol : ℚ)
    (c1 c2 : Cell) :
    (is_comparable d1 d2 = true →
      (inNumericSparkTypes d1 && inNumericSparkTypes d2) = false →
      columns_equal_row d1 d2 rt a_tol true c1 c2
        = ((toStr c1).map sqlTrim == (toStr c2).map sqlTrim))
    ∧ ((inNumericSparkTypes d1 && inNumericSparkTypes d2) = true →
      ∀ isp1 isp2 : Bool,
        columns_equal_row d1 d2 rt a_tol isp1 c1 c2
          = columns_equal_row d1 d2 rt a_tol isp2 c1 c2) := by
  constructor
  · intro hc hn
    simp [columns_equal_row, hc, hn]
  · intro hn isp1 isp2
    have hc : is_comparable d1 d2 = true := by
      simp [is_comparable, hn]
    simp [columns_equal_row, hc, hn]

/-- Witness for the amended claim of C7: trimming is applied to the date/date
pair (neither column string-typed). -/
theorem columns_equal_ignore_spaces_amended_witness :
    columns_equal_row "date" "date" 0 0 true
      (some (Prim.str "2020-01-01")) (some (Prim.str "2020-01-01 ")) = true := by
  rw [(columns_equal_ignore_spaces_amended "date" "date" 0 0
    (some (Prim.str "2020-01-01")) (some (Prim.str "2020-01-01 "))).1
    (by decide) (by decide)]
  decide

/-- C4: when the two dtypes are incomparable, the match flag is false on
every row (even two nulls), so the match count of the column is 0 and its
mismatch count equals the matched-row count — the column is reported, not
skipped. -/
theorem incomparable_always_false (rt a_tol : ℚ) (isp : Bool) (c : ColPair)
    (pairs : List (Cell × Cell))
    (h : is_comparable c.dtype1 c.dtype2 = false) :
    (∀ p : Cell × Cell, columns_equal_row c.dtype1 c.dtype2 rt a_tol isp p.1 p.2 = false)
    ∧ (columnStat rt a_tol isp c pairs).match_cnt = 0
    ∧ (columnStat rt a_tol isp c pairs).unequal_cnt = pairs.length := by
  have hrow : ∀ p : Cell × Cell,
      columns_equal_row c.dtype1 c.dtype2 rt a_tol isp p.1 p.2 = false := by
    intro p
    simp [columns_equal_row, h]
  have hcnt : (columnStat rt a_tol isp c pairs).match_cnt = 0 := by
    simp only [columnStat]
    exact List.countP_eq_zero.mpr fun p _ => by simp [hrow p]
  refine ⟨hrow, hcnt, ?_⟩
  have hun : (columnStat rt a_tol isp c pairs).unequal_cnt
      = pairs.length - (columnStat rt a_tol isp c pairs).match_cnt := rfl
  rw [hun, hcnt, Nat.sub_zero]

/-- Witness for C4: the theorem applied to an incomparable string/int column
with a single two-null row. -/
theorem incomparable_always_false_witness :
    (columnStat 0 0 false ⟨"a", "string", "int"⟩ [(none, none)]).unequal_cnt = 1 :=
  (incomparable_always_false 0 0 false ⟨"a", "string", "int"⟩ [(none, none)]
    (by decide)).2.2

lemma foldl_max_mem (xs : List ℚ) : ∀ x : ℚ, xs.foldl max x ∈ x :: xs := by
  induction xs with
  | nil => intro x; simp
  | cons b xs ih =>
    intro x
    have h := ih (max x b)
    simp only [List.foldl_cons]
    rcases List.mem_cons.mp h with h1 | h1
    · rcases max_choice x b with h2 | h2
      · rw [h1, h2]; exact List.mem_cons_self _ _
      · rw [h1, h2]; exact List.mem_cons.mpr (Or.inr (List.mem_cons_self _ _))
    · exact List.mem_cons.mpr (Or.inr (List.mem_cons.mpr (Or.inr h1)))

lemma le_foldl_max (xs : List ℚ) : ∀ x y : ℚ, y ∈ x :: xs → y ≤ xs.foldl max x := by
  induction xs with
  | nil =>
    intro x y h
    simp only [List.mem_singleton] at h
    simp [h]
  | cons b xs ih =>
    intro x y h
    simp only [List.foldl_cons]
    rcases List.mem_cons.mp h with rfl | h1
    · exact le_trans (le_max_left y b) (ih (max y b) _ (List.mem_cons_self _ _))
    · rcases List.mem_cons.mp h1 with rfl | h2
      · exact le_trans (le_max_right x y) (ih (max x y) _ (List.mem_cons_self _ _))
      · exact ih _ _ (List.mem_cons.mpr (Or.inr h2))

/-- The filterMap function building the non-null absolute differences in
`calculate_max_diff` produces `some` exactly on pairs of numeric cells. -/
lemma maxDiffEntry_eq_some {p : Cell × Cell} {d : ℚ}
    (h : (match toNum p.1, toNum p.2 with
          | some a, some b => some |a - b|
          | _, _ => none) = some d) :
    ∃ a b : ℚ, p.1 = some (Prim.num a) ∧ p.2 = some (Prim.num b) ∧ d = |a - b| := by
  obtain ⟨c1, c2⟩ := p
  cases c1 with
  | none => simp [toNum] at h
  | some v1 =>
    cases v1 with
    | str s => simp [toNum] at h
    | num a =>
      cases c2 with
      | none => simp [toNum] at h
      | some v2 =>
        cases v2 with
        | str s => simp [toNum] at h
        | num b =>
          simp only [toNum] at h
          exact ⟨a, b, rfl, rfl, (Option.some.injEq _ _ ▸ h).symm⟩

/-- C6: `calculate_max_diff` is 0 when either dtype is non-numeric;
otherwise it bounds every non-null absolute difference from above, is 0 or
attained by such a difference, is unchanged by rows with a null operand
(they are excluded, not treated as zero), and is 0 on the empty set. -/
theorem calculate_max_diff_spec (t1 t2 : String) (pairs : List (Cell × Cell)) :
    (¬(inNumericSparkTypes t1 = true ∧ inNumericSparkTypes t2 = true) →
      calculate_max_diff t1 t2 pairs = 0)
    ∧ (inNumericSparkTypes t1 = true → inNumericSparkTypes t2 = true →
      ∀ a b : ℚ, (some (Prim.num a), some (Prim.num b)) ∈ pairs →
        |a - b| ≤ calculate_max_diff t1 t2 pairs)
    ∧ (calculate_max_diff t1 t2 pairs = 0
        ∨ ∃ a b : ℚ, (some (Prim.num a), some (Prim.num b)) ∈ pairs
            ∧ calculate_max_diff t1 t2 pairs = |a - b|)
    ∧ (∀ p : Cell × Cell, toNum p.1 = none ∨ toNum p.2 = none →
        calculate_max_diff t1 t2 (p :: pairs) = calculate_max_diff t1 t2 pairs)
    ∧ calculate_max_diff t1 t2 [] = 0 := by
  cases hb : (inNumericSparkTypes t1 && inNumericSparkTypes t2) with
  | false =>
    have hzero : ∀ ps : List (Cell × Cell), calculate_max_diff t1 t2 ps = 0 := by
      intro ps
      simp [calculate_max_diff, hb]
    refine ⟨fun _ => hzero pairs, ?_, Or.inl (hzero pairs), fun p _ => ?_, hzero []⟩
    · intro h1 h2
      rw [h1, h2] at hb
      simp at hb
    · rw [hzero (p :: pairs), hzero pairs]
  | true =>
    have hb' := Bool.and_eq_true _ _ ▸ hb
    have hval : ∀ ps : List (Cell × Cell), calculate_max_diff t1 t2 ps
        = (match ps.filterMap (fun p =>
              match toNum p.1, toNum p.2 with
              | some a, some b => some |a - b|
              | _, _ => none) with
          | [] => 0
          | x :: xs => xs.foldl max x) := by
      intro ps
      simp [calculate_max_diff, hb]
    refine ⟨?_, ?_, ?_, ?_, ?_⟩
    · intro h
      exact absurd hb' h
    · intro _ _ a b hmem
      have hd : |a - b| ∈ pairs.filterMap (fun p =>
          match toNum p.1, toNum p.2 with
          | some a, some b => some |a - b|
          | _, _ => none) := by
        refine List.mem_filterMap.mpr ⟨(some (Prim.num a), some (Prim.num b)), hmem, ?_⟩
        simp [toNum]
      rw [hval pairs]
      cases hfm : pairs.filterMap (fun p =>
          match toNum p.1, toNum p.2 with
          | some a, some b => some |a - b|
          | _, _ => none) with
      | nil => rw [hfm] at hd; simp at hd
      | cons x xs =>
        rw [hfm] at hd
        exact le_foldl_max xs x _ hd
    · rw [hval pairs]
      cases hfm : pairs.filterMap (fun p =>
          match toNum p.1, toNum p.2 with
          | some a, some b => some |a - b|
          | _, _ => none) with
      | nil => exact Or.inl rfl
      | cons x xs =>
        have hmem := foldl_max_mem xs x
        rw [← hfm] at hmem
        obtain ⟨p, hp, hsome⟩ := List.mem_filterMap.mp hmem
        obtain ⟨a, b, hp1, hp2, hd⟩ := maxDiffEntry_eq_some hsome
        refine Or.inr ⟨a, b, ?_, hd⟩
        have : p = (some (Prim.num a), some (Prim.num b)) := by
          obtain ⟨c1, c2⟩ := p
          simp only at hp1 hp2
          rw [hp1, hp2]
        rw [← this]
        exact hp
    · intro p hp
      rw [hval (p :: pairs), hval pairs]
      have hnone : (match toNum p.1, toNum p.2 with
          | some a, some b => some |a - b|
          | _, _ => none) = (none : Option ℚ) := by
        rcases hp with h | h
        · rw [h]
        · rw [h]
          cases toNum p.1 <;> rfl
      simp only [List.filterMap_cons, hnone]
    · rw [hval []]
      rfl

/-- Witness for C6: the upper-bound conjunct applied at a concrete column. -/
theorem calculate_max_diff_spec_witness :
    |(3 : ℚ) - 1| ≤ calculate_max_diff "int" "int"
      [(some (Prim.num 3), some (Prim.num 1))] :=
  (calculate_max_diff_spec "int" "int" [(some (Prim.num 3), some (Prim.num 1))]).2.1
    (by decide) (by decide) 3 1 (List.mem_singleton.mpr rfl)

/-- C10: the `all_match` statistic of a column is true iff its two dtype strings
are identical and the flag of every matched row is true; non-identical dtypes are
never fully matching even with zero mismatches; and `match_cnt + unequal_cnt`
equals the matched-row count, for non-key and join-key columns alike. -/
theorem column_stat_all_match (rt a_tol : ℚ) (isp : Bool) (c : ColPair)
    (pairs : List (Cell × Cell)) :
    ((columnStat rt a_tol isp c pairs).all_match = true
      ↔ (c.dtype1 = c.dtype2
          ∧ ∀ p ∈ pairs, columns_equal_row c.dtype1 c.dtype2 rt a_tol isp p.1 p.2 = true))
    ∧ (c.dtype1 ≠ c.dtype2 → (columnStat rt a_tol isp c pairs).all_match = false)
    ∧ ((columnStat rt a_tol isp c pairs).match_cnt
        + (columnStat rt a_tol isp c pairs).unequal_cnt = pairs.length)
    ∧ (∀ row_cnt : ℕ,
        (columnStatJoinKey c row_cnt).match_cnt
          + (columnStatJoinKey c row_cnt).unequal_cnt = row_cnt
        ∧ ((columnStatJoinKey c row_cnt).all_match = true ↔ c.dtype1 = c.dtype2)) := by
  have hle : (pairs.countP fun p =>
      columns_equal_row c.dtype1 c.dtype2 rt a_tol isp p.1 p.2) ≤ pairs.length :=
    List.countP_le_length _
  refine ⟨?_, ?_, ?_, ?_⟩
  · simp only [columnStat, Bool.and_eq_true, beq_iff_eq]
    constructor
    · rintro ⟨hdt, hcnt⟩
      exact ⟨hdt, List.countP_eq_length.mp hcnt.symm⟩
    · rintro ⟨hdt, hall⟩
      exact ⟨hdt, (List.countP_eq_length.mpr hall).symm⟩
  · intro hne
    simp [columnStat, hne]
  · simp only [columnStat]
    exact Nat.add_sub_cancel' hle
  · intro row_cnt
    constructor
    · simp [columnStatJoinKey]
    · simp [columnStatJoinKey]

/-- Witness for C10: non-identical but comparable dtypes give
`all_match = false` even on an empty (zero-mismatch) column. -/
theorem column_stat_all_match_witness :
    (columnStat 0 0 false ⟨"v", "int", "float"⟩ []).all_match = false :=
  (column_stat_all_match 0 0 false ⟨"v", "int", "float"⟩ []).2.1 (by decide)

/-- C9: with no shared non-key columns, `count_matching_rows` is 0, so
`intersect_rows_match` holds only for an empty intersect relation, and
`matches`/`subset` can be true only with no matched rows. -/
theorem no_nonkey_columns_degenerate (s : CompareState) (h : s.nonKeyCols = [])
    (ie : Bool) :
    count_matching_rows s = 0
    ∧ (intersect_rows_match s = true ↔ s.rows = [])
    ∧ (table_matches s ie = true → s.rows = [])
    ∧ (subset s = true → s.rows = []) := by
  have h0 : count_matching_rows s = 0 := by
    simp [count_matching_rows, h]
  have h1 : intersect_rows_match s = true ↔ s.rows = [] := by
    rw [intersect_rows_match, h0, beq_iff_eq]
    exact ⟨fun hq => List.length_eq_zero.mp hq.symm, fun hq => by rw [hq]; rfl⟩
  refine ⟨h0, h1, ?_, ?_⟩
  · intro hm
    simp only [table_matches, Bool.and_eq_true] at hm
    exact h1.mp hm.2
  · intro hs
    simp only [subset, Bool.and_eq_true] at hs
    exact h1.mp hs.2

/-- Witness for C9: the theorem applied to a state with a single matched row
and no shared non-key columns. -/
theorem no_nonkey_columns_degenerate_witness :
    count_matching_rows ⟨[], [], [], [[]], 0, 0, 0, 0, false⟩ = 0 :=
  (no_nonkey_columns_degenerate ⟨[], [], [], [[]], 0, 0, 0, 0, false⟩ rfl false).1

/-- Characterisation of `intersect_rows_match`: with at least one shared
non-key column it means every matched row matches on all of them; with none
it degenerates to the intersect relation being empty. -/
lemma intersect_rows_match_iff (s : CompareState) :
    intersect_rows_match s = true
      ↔ ((s.nonKeyCols ≠ [] ∧ ∀ row ∈ s.rows, rowAllMatch s row = true)
          ∨ (s.nonKeyCols = [] ∧ s.rows = [])) := by
  rw [intersect_rows_match, count_matching_rows]
  cases hnk : s.nonKeyCols with
  | nil =>
    simp only [List.isEmpty_nil, if_true, beq_iff_eq, ne_eq, not_true_eq_false,
      false_and, false_or, true_and]
    constructor
    · intro hcnt
      exact List.length_eq_zero.mp hcnt.symm
    · intro hr
      rw [hr]
      rfl
  | cons c0 cs =>
    simp only [List.isEmpty_cons, Bool.false_eq_true, if_false, beq_iff_eq, ne_eq,
      List.cons_ne_nil, not_false_eq_true, true_and, false_and, or_false]
    rw [← List.countP_eq_length_filter]
    constructor
    · intro hcnt
      exact List.countP_eq_length.mp hcnt
    · intro hall
      exact List.countP_eq_length.mpr hall

/-- C8 counterexample: `subset()` is false on a state where the df2 columns
are a subset of the df1 columns, df2 has no unique rows, and every matched row
(vacuously) matches on all shared non-key columns — because with no shared
non-key column `count_matching_rows` is 0 while a matched row exists. -/
theorem subset_cex :
    subset subsetCexState = false
    ∧ subsetCexState.df2OnlyCols = []
    ∧ subsetCexState.df2UnqRowCount = 0
    ∧ (∀ row ∈ subsetCexState.rows, rowAllMatch subsetCexState row = true)
    ∧ subsetCexState.rows ≠ [] := by
  refine ⟨by decide, rfl, rfl, by decide, by decide⟩

/-- C8 amended: `subset()` is true iff the df2 columns are a subset of the df1 columns,
df2 has no rows outside the key alignment, and — when at least one shared
non-key column exists — every matched row matches on all of them; with no
shared non-key column it additionally requires the matched relation to be
empty. -/
theorem subset_amended (s : CompareState) :
    subset s = true
      ↔ (s.df2OnlyCols = [] ∧ s.df2UnqRowCount = 0
          ∧ ((s.nonKeyCols ≠ [] ∧ ∀ row ∈ s.rows, rowAllMatch s row = true)
              ∨ (s.nonKeyCols = [] ∧ s.rows = []))) := by
  rw [subset]
  simp only [Bool.and_eq_true, List.isEmpty_iff, beq_iff_eq]
  rw [intersect_rows_match_iff]
  tauto

/-- C5 counterexample: the sentinel occurs as real data in a string-typed
join key column, yet `_generate_id_within_group` proceeds with grouping
(no error) because no join-key value is null. -/
theorem generate_id_sentinel_cex :
    sentinelInJoinStringCols ["string"] [[some (Prim.str sentinel)]] = true
    ∧ generate_id_within_group ["string"] [[some (Prim.str sentinel)]]
        = Except.ok [(0, 0)] := by
  constructor
  · decide
  · rfl

lemma onlyLeftRows_append {α β : Type} (j1 j2 : List (JoinRow α β)) :
    onlyLeftRows (j1 ++ j2) = onlyLeftRows j1 ++ onlyLeftRows j2 :=
  List.filterMap_append _ _ _

lemma onlyRightRows_append {α β : Type} (j1 j2 : List (JoinRow α β)) :
    onlyRightRows (j1 ++ j2) = onlyRightRows j1 ++ onlyRightRows j2 :=
  List.filterMap_append _ _ _

lemma bothRows_append {α β : Type} (j1 j2 : List (JoinRow α β)) :
    bothRows (j1 ++ j2) = bothRows j1 ++ bothRows j2 :=
  List.filterMap_append _ _ _

lemma joinLeftPart_cons {α β K : Type} [DecidableEq K] (ka : α → K) (kb : β → K)
    (a : α) (l : List α) (r : List β) :
    joinLeftPart ka kb (a :: l) r
      = (if (r.filter fun b => kb b == ka a).isEmpty
          then [JoinRow.leftOnly a]
          else (r.filter fun b => kb b == ka a).map (JoinRow.both a))
        ++ joinLeftPart ka kb l r := by
  simp only [joinLeftPart, List.flatMap_cons]

lemma onlyLeftRows_joinRightPart {α β K : Type} [DecidableEq K] (ka : α → K)
    (kb : β → K) (l : List α) (r : List β) :
    onlyLeftRows (joinRightPart ka kb l r) = [] := by
  unfold joinRightPart onlyLeftRows
  induction r.filter fun b => !(l.any fun a => ka a == kb b) with
  | nil => rfl
  | cons b bs ih => simpa using ih

lemma bothRows_joinRightPart {α β K : Type} [DecidableEq K] (ka : α → K)
    (kb : β → K) (l : List α) (r : List β) :
    bothRows (joinRightPart ka kb l r) = [] := by
  unfold joinRightPart bothRows
  induction r.filter fun b => !(l.any fun a => ka a == kb b) with
  | nil => rfl
  | cons b bs ih => simpa using ih

lemma onlyRightRows_joinRightPart {α β K : Type} [DecidableEq K] (ka : α → K)
    (kb : β → K) (l : List α) (r : List β) :
    onlyRightRows (joinRightPart ka kb l r)
      = r.filter fun b => !(l.any fun a => ka a == kb b) := by
  unfold joinRightPart onlyRightRows
  induction r.filter fun b => !(l.any fun a => ka a == kb b) with
  | nil => rfl
  | cons b bs ih => simpa using ih

lemma filter_key_length_le_one {β K : Type} [DecidableEq K] (kb : β → K)
    (r : List β) (k : K) (hb : (r.map kb).Nodup) :
    (r.filter fun b => kb b == k).length ≤ 1 := by
  induction r with
  | nil => simp
  | cons b r ih =>
    simp only [List.map_cons, List.nodup_cons] at hb
    by_cases h : kb b = k
    · have hrest : (r.filter fun b' => kb b' == k) = [] := by
        rw [List.filter_eq_nil_iff]
        intro b' hb'
        simp only [beq_iff_eq]
        intro hk
        exact hb.1 (by rw [h, ← hk]; exact List.mem_map_of_mem kb hb')
      rw [List.filter_cons_of_pos (by simp [h]), hrest]
      exact le_refl 1
    · rw [List.filter_cons_of_neg (by simp [h])]
      exact ih hb.2

lemma filter_key_singleton {β K : Type} [DecidableEq K] (kb : β → K)
    (r : List β) (k : K) (hb : (r.map kb).Nodup)
    (hne : (r.filter fun b => kb b == k).isEmpty = false) :
    ∃ b, (r.filter fun b => kb b == k) = [b] := by
  rw [← List.length_eq_one]
  have hle := filter_key_length_le_one kb r k hb
  have hpos : 0 < (r.filter fun b => kb b == k).length := by
    cases hf : r.filter fun b => kb b == k with
    | nil => rw [hf] at hne; simp at hne
    | cons x xs => simp [hf]
  omega

lemma joinLeftPart_perm {α β K : Type} [DecidableEq K] (ka : α → K) (kb : β → K)
    (r : List β) (hb : (r.map kb).Nodup) :
    ∀ l : List α,
      List.Perm (onlyLeftRows (joinLeftPart ka kb l r)
        ++ (bothRows (joinLeftPart ka kb l r)).map Prod.fst) l := by
  intro l
  induction l with
  | nil => exact List.Perm.nil
  | cons a l ih =>
    rw [joinLeftPart_cons, onlyLeftRows_append, bothRows_append]
    by_cases hms : (r.filter fun b => kb b == ka a).isEmpty
    · rw [if_pos hms]
      show List.Perm ((a :: onlyLeftRows (joinLeftPart ka kb l r))
        ++ (bothRows (joinLeftPart ka kb l r)).map Prod.fst) (a :: l)
      exact List.Perm.cons a ih
    · obtain ⟨b, hb1⟩ := filter_key_singleton kb r (ka a) hb
        (Bool.not_eq_true _ ▸ hms)
      rw [if_neg hms, hb1]
      show List.Perm (onlyLeftRows (joinLeftPart ka kb l r)
        ++ a :: (bothRows (joinLeftPart ka kb l r)).map Prod.fst) (a :: l)
      exact List.perm_middle.trans (List.Perm.cons a ih)

lemma bothRows_joinLeftPart {α β K : Type} [DecidableEq K] (ka : α → K) (kb : β → K)
    (r : List β) : ∀ l : List α,
    bothRows (joinLeftPart ka kb l r)
      = l.flatMap fun a => (r.filter fun b => kb b == ka a).map fun b => (a, b) := by
  intro l
  induction l with
  | nil => rfl
  | cons a l ih =>
    rw [joinLeftPart_cons, bothRows_append, List.flatMap_cons, ih]
    congr 1
    by_cases hms : (r.filter fun b => kb b == ka a).isEmpty
    · rw [if_pos hms]
      rw [List.isEmpty_iff.mp hms]
      rfl
    · rw [if_neg hms]
      unfold bothRows
      induction r.filter fun b => kb b == ka a with
      | nil => rfl
      | cons b bs ih2 => simpa using ih2

lemma onlyRightRows_joinLeftPart {α β K : Type} [DecidableEq K] (ka : α → K)
    (kb : β → K) (r : List β) : ∀ l : List α,
    onlyRightRows (joinLeftPart ka kb l r) = [] := by
  intro l
  induction l with
  | nil => rfl
  | cons a l ih =>
    rw [joinLeftPart_cons, onlyRightRows_append, ih]
    by_cases hms : (r.filter fun b => kb b == ka a).isEmpty
    · rw [if_pos hms]
      rfl
    · rw [if_neg hms]
      rw [List.append_nil]
      unfold onlyRightRows
      induction r.filter fun b => kb b == ka a with
      | nil => rfl
      | cons b bs ih2 => simpa using ih2

lemma count_filter_ite {β : Type} [DecidableEq β] (p : β → Bool) (r : List β)
    (y : β) : (r.filter p).count y = if p y then r.count y else 0 := by
  by_cases h : p y = true
  · rw [if_pos h]
    exact List.count_filter h
  · rw [if_neg h]
    rw [List.count_eq_zero]
    intro hmem
    exact h (List.of_mem_filter hmem)

lemma count_flatMap_eq_sum {α γ : Type} [DecidableEq γ] (l : List α)
    (g : α → List γ) (y : γ) :
    ((l.flatMap g).count y) = (l.map fun a => (g a).count y).sum := by
  induction l with
  | nil => rfl
  | cons a l ih => simp [List.flatMap_cons, List.count_append, ih]

lemma sum_count_filter_key {α β K : Type} [DecidableEq K] [DecidableEq β]
    (ka : α → K) (kb : β → K) (l : List α) (r : List β) (y : β) :
    (l.map fun a => ((r.filter fun b => kb b == ka a).count y)).sum
      = (l.countP fun a => ka a == kb y) * r.count y := by
  induction l with
  | nil => simp
  | cons a l ih =>
    simp only [List.map_cons, List.sum_cons, List.countP_cons, ih]
    rw [count_filter_ite]
    by_cases h : ka a = kb y
    · have h1 : (kb y == ka a) = true := by simp [h]
      have h2 : (ka a == kb y) = true := by simp [h]
      rw [if_pos h1, if_pos h2]
      ring
    · have h1 : ¬((kb y == ka a) = true) := by
        simp only [beq_iff_eq]
        exact fun hk => h hk.symm
      have h2 : ¬((ka a == kb y) = true) := by
        simp only [beq_iff_eq]
        exact h
      rw [if_neg h1, if_neg h2]
      ring

lemma countP_key_of_nodup {α K : Type} [DecidableEq K] (ka : α → K) (l : List α)
    (k : K) (hl : (l.map ka).Nodup) :
    (l.countP fun a => ka a == k) = if (l.any fun a => ka a == k) then 1 else 0 := by
  induction l with
  | nil => rfl
  | cons a l ih =>
    simp only [List.map_cons, List.nodup_cons] at hl
    simp only [List.countP_cons, List.any_cons]
    by_cases h : ka a = k
    · have hz : (l.countP fun a => ka a == k) = 0 := by
        rw [List.countP_eq_zero]
        intro a' ha'
        simp only [beq_iff_eq]
        intro hk
        exact hl.1 (by rw [h, ← hk]; exact List.mem_map_of_mem ka ha')
      simp [h, hz]
    · simp only [ih hl.2, beq_iff_eq]
      simp [h]

lemma fullOuterJoin_right_count {α β K : Type} [DecidableEq K] [DecidableEq β]
    (ka : α → K) (kb : β → K) (l : List α) (r : List β)
    (ha : (l.map ka).Nodup) (y : β) :
    (onlyRightRows (fullOuterJoin ka kb l r)).count y
      + ((bothRows (fullOuterJoin ka kb l r)).map Prod.snd).count y = r.count y := by
  rw [fullOuterJoin, onlyRightRows_append, bothRows_append,
    onlyRightRows_joinLeftPart, onlyRightRows_joinRightPart,
    bothRows_joinRightPart, List.append_nil, List.nil_append,
    bothRows_joinLeftPart]
  rw [List.map_flatMap]
  have hmaps : (fun a => ((r.filter fun b => kb b == ka a).map fun b => (a, b)).map Prod.snd)
      = fun a => r.filter fun b => kb b == ka a := by
    funext a
    rw [List.map_map]
    exact List.map_id _
  rw [hmaps]
  rw [count_flatMap_eq_sum, sum_count_filter_key, countP_key_of_nodup ka l (kb y) ha,
    count_filter_ite]
  by_cases hany : (l.any fun a => ka a == kb y) = true
  · rw [hany]
    simp
  · have hany' : (l.any fun a => ka a == kb y) = false := by
      cases hq : l.any fun a => ka a == kb y
      · rfl
      · exact absurd hq hany
    rw [hany']
    simp

lemma fullOuterJoin_left_perm {α β K : Type} [DecidableEq K] (ka : α → K)
    (kb : β → K) (l : List α) (r : List β) (hb : (r.map kb).Nodup) :
    List.Perm (onlyLeftRows (fullOuterJoin ka kb l r)
      ++ (bothRows (fullOuterJoin ka kb l r)).map Prod.fst) l := by
  rw [fullOuterJoin, onlyLeftRows_append, bothRows_append,
    onlyLeftRows_joinRightPart, bothRows_joinRightPart,
    List.append_nil, List.append_nil]
  exact joinLeftPart_perm ka kb r hb l

lemma fullOuterJoin_right_perm {α β K : Type} [DecidableEq K] [DecidableEq β]
    (ka : α → K) (kb : β → K) (l : List α) (r : List β)
    (ha : (l.map ka).Nodup) :
    List.Perm (onlyRightRows (fullOuterJoin ka kb l r)
      ++ (bothRows (fullOuterJoin ka kb l r)).map Prod.snd) r :=
  List.perm_iff_count.mpr fun y => by
    rw [List.count_append]
    exact fullOuterJoin_right_count ka kb l r ha y

lemma hasDupKeys_eq_false_iff {Row K : Type} [DecidableEq K] (key : Row → K)
    (l : List Row) : hasDupKeys key l = false ↔ (l.map key).Nodup := by
  unfold hasDupKeys
  rw [decide_eq_false_iff_not, not_lt]
  constructor
  · intro h
    have hsub := List.dedup_sublist (l.map key)
    have heq := hsub.eq_of_length_le (by simpa using h)
    rw [← heq]
    exact List.nodup_dedup _
  · intro h
    rw [List.Nodup.dedup h, List.length_map]

/-- C1: with unique join keys on both sides, the three result relations of
`_dataframe_merge` partition the row space — the source rows of
`onlyLeft ++ matched` are a permutation of the left relation (and likewise
on the right), giving `count(onlyLeft) + count(matched) = count(left)` and
`count(onlyRight) + count(matched) = count(right)`.  With duplicate keys,
however, the counts do NOT hold at the ordinal-augmented-key granularity:
the join is performed on the original join columns only (the ordinal
appended to `temp_join_columns` is never passed to the join), so two
duplicate rows per side produce a 2×2 cross product of 4 matched rows
instead of 2, and `count(onlyLeft) + count(matched) = 4 ≠ 2`. -/
theorem merge_partition_and_duplicate_key_bug :
    (∀ (Row K : Type) [DecidableEq Row] [DecidableEq K] (key : Row → K)
        (l r : List Row),
      (l.map key).Nodup → (r.map key).Nodup →
        List.Perm (onlyLeftRows (dataframe_merge key l r)
            ++ (bothRows (dataframe_merge key l r)).map Prod.fst) l
        ∧ List.Perm (onlyRightRows (dataframe_merge key l r)
            ++ (bothRows (dataframe_merge key l r)).map Prod.snd) r
        ∧ (onlyLeftRows (dataframe_merge key l r)).length
            + (bothRows (dataframe_merge key l r)).length = l.length
        ∧ (onlyRightRows (dataframe_merge key l r)).length
            + (bothRows (dataframe_merge key l r)).length = r.length)
    ∧ ((bothRows (dataframe_merge (fun n : ℕ => n) [1, 1] [1, 1])).length = 4
        ∧ (withOrdinals (fun n : ℕ => n) [1, 1]).length = 2
        ∧ (onlyLeftRows (dataframe_merge (fun n : ℕ => n) [1, 1] [1, 1])).length
            + (bothRows (dataframe_merge (fun n : ℕ => n) [1, 1] [1, 1])).length
          ≠ 2) := by
  constructor
  · intro Row K _ _ key l r hl hr
    have hm : dataframe_merge key l r = fullOuterJoin key key l r := by
      unfold dataframe_merge
      rw [(hasDupKeys_eq_false_iff key l).mpr hl, (hasDupKeys_eq_false_iff key r).mpr hr]
      rfl
    rw [hm]
    have hperm1 := fullOuterJoin_left_perm key key l r hr
    have hperm2 := fullOuterJoin_right_perm key key l r hl
    refine ⟨hperm1, hperm2, ?_, ?_⟩
    · have hlen := hperm1.length_eq
      rw [List.length_append, List.length_map] at hlen
      exact hlen
    · have hlen := hperm2.length_eq
      rw [List.length_append, List.length_map] at hlen
      exact hlen
  · exact ⟨by decide, by decide, by decide⟩

/-- Witness for the unique-key part of C1 at concrete relations. -/
theorem merge_partition_and_duplicate_key_bug_witness :
    (onlyLeftRows (dataframe_merge (fun n : ℕ => n) [1, 2] [2, 3])).length
      + (bothRows (dataframe_merge (fun n : ℕ => n) [1, 2] [2, 3])).length = 2 :=
  (merge_partition_and_duplicate_key_bug.1 ℕ ℕ (fun n => n) [1, 2] [2, 3]
    (by decide) (by decide)).2.2.1

/-- C5 amended: `_generate_id_within_group` raises iff the sentinel occurs
as real data in a string-typed join key column *and* some join key value is
null (the sentinel check is only enforced when null substitution is about to
happen); otherwise it proceeds with grouping. -/
theorem generate_id_error_iff (dtypes : List String) (rows : List (List Cell)) :
    (∃ e, generate_id_within_group dtypes rows = Except.error e)
      ↔ (nullInJoinCols rows = true ∧ sentinelInJoinStringCols dtypes rows = true) := by
  unfold generate_id_within_group
  cases h1 : nullInJoinCols rows <;>
    cases h2 : sentinelInJoinStringCols dtypes rows <;>
      simp [h1, h2]

end Datacompy
